import Mathlib

/-!
# Verification of the AI Reading Companion session/pipeline behaviour

Shallow embedding of the frontend source (`src/frontend/src`) of the
reading-companion application, together with models of the backend core
(SessionStore, RequestGate, PipelineOrchestrator, ExpiryReaper) taken from
the specification where the backend implementation is not part of the
repository. Pure functions from the TypeScript source are translated
directly; stateful React hooks become explicit state-passing functions whose
asynchronous call results are passed in as `Except` values.
-/

namespace ReadingCompanion

/-! ## Reader preferences (useReaderPreferences, hooks/useSession.ts) -/

def MIN_FONT_SIZE : Int := 14
def MAX_FONT_SIZE : Int := 28
def FONT_SIZE_STEP : Int := 2

/-- `increaseFontSize`: `setFontSize(prev => Math.min(MAX_FONT_SIZE, prev + FONT_SIZE_STEP))`. -/
def increaseFontSize (prev : Int) : Int :=
  min MAX_FONT_SIZE (prev + FONT_SIZE_STEP)

/-- `decreaseFontSize`: `setFontSize(prev => Math.max(MIN_FONT_SIZE, prev - FONT_SIZE_STEP))`. -/
def decreaseFontSize (prev : Int) : Int :=
  max MIN_FONT_SIZE (prev - FONT_SIZE_STEP)

/-- `canIncrease: fontSize < MAX_FONT_SIZE`. -/
def canIncrease (fontSize : Int) : Bool := fontSize < MAX_FONT_SIZE

/-- `canDecrease: fontSize > MIN_FONT_SIZE`. -/
def canDecrease (fontSize : Int) : Bool := fontSize > MIN_FONT_SIZE

/-- A user interaction with the font-size controls. -/
inductive FontOp
  | increase
  | decrease
deriving Repr, DecidableEq

def fontStep (fontSize : Int) : FontOp → Int
  | .increase => increaseFontSize fontSize
  | .decrease => decreaseFontSize fontSize

/-- The font size after a sequence of increase/decrease interactions. -/
def fontRun (fontSize : Int) (ops : List FontOp) : Int :=
  ops.foldl fontStep fontSize

/-! ## Page navigation (app/page.tsx and components/ReaderView.tsx) -/

/-- `goToNextPage`: `if (currentPage < pages.length) setCurrentPage(prev => prev + 1)`;
identical guard in `ReaderView.goToNext`. -/
def goToNextPage (pagesLen currentPage : Nat) : Nat :=
  if currentPage < pagesLen then currentPage + 1 else currentPage

/-- `goToPrevPage`: `if (currentPage > 1) setCurrentPage(prev => prev - 1)`;
identical guard in `ReaderView.goToPrevious`. -/
def goToPrevPage (currentPage : Nat) : Nat :=
  if currentPage > 1 then currentPage - 1 else currentPage

/-- A next/previous page navigation step. -/
inductive NavOp
  | next
  | prev
deriving Repr, DecidableEq

def navStep (pagesLen currentPage : Nat) : NavOp → Nat
  | .next => goToNextPage pagesLen currentPage
  | .prev => goToPrevPage currentPage

/-- The current page after a sequence of next/previous navigation steps. -/
def navRun (pagesLen currentPage : Nat) (ops : List NavOp) : Nat :=
  ops.foldl (navStep pagesLen) currentPage

/-! ## Theorems: font size invariant (C9) -/

lemma fontStep_mem (f : Int) (hlo : MIN_FONT_SIZE ≤ f) (hhi : f ≤ MAX_FONT_SIZE)
    (op : FontOp) : MIN_FONT_SIZE ≤ fontStep f op ∧ fontStep f op ≤ MAX_FONT_SIZE := by
  cases op <;>
    simp only [fontStep, increaseFontSize, decreaseFontSize, MIN_FONT_SIZE, MAX_FONT_SIZE,
      FONT_SIZE_STEP] at * <;>
    omega

lemma fontRun_mem (f : Int) (hlo : MIN_FONT_SIZE ≤ f) (hhi : f ≤ MAX_FONT_SIZE)
    (ops : List FontOp) : MIN_FONT_SIZE ≤ fontRun f ops ∧ fontRun f ops ≤ MAX_FONT_SIZE := by
  induction ops generalizing f with
  | nil => exact ⟨hlo, hhi⟩
  | cons op rest ih =>
    obtain ⟨h1, h2⟩ := fontStep_mem f hlo hhi op
    simpa [fontRun] using ih (fontStep f op) h1 h2

/-- C9: starting from any font size in [14, 28], every sequence of
increase/decrease interactions keeps the font size in [14, 28]; `canIncrease`
holds exactly when the font size is below 28 and `canDecrease` exactly when it
is above 14. -/
theorem fontSize_invariant (f : Int) (hlo : MIN_FONT_SIZE ≤ f) (hhi : f ≤ MAX_FONT_SIZE)
    (ops : List FontOp) :
    MIN_FONT_SIZE ≤ fontRun f ops ∧ fontRun f ops ≤ MAX_FONT_SIZE ∧
      (canIncrease (fontRun f ops) = true ↔ fontRun f ops < MAX_FONT_SIZE) ∧
      (canDecrease (fontRun f ops) = true ↔ MIN_FONT_SIZE < fontRun f ops) := by
  obtain ⟨h1, h2⟩ := fontRun_mem f hlo hhi ops
  refine ⟨h1, h2, ?_, ?_⟩ <;> simp [canIncrease, canDecrease]

/-- C9 witness: the default font size 18 is in range, and a concrete
interaction sequence keeps the invariant. -/
theorem fontSize_invariant_witness :
    MIN_FONT_SIZE ≤ (18 : Int) ∧ (18 : Int) ≤ MAX_FONT_SIZE ∧
      (MIN_FONT_SIZE ≤ fontRun 18 [.increase, .increase, .decrease] ∧
        fontRun 18 [.increase, .increase, .decrease] ≤ MAX_FONT_SIZE ∧
        (canIncrease (fontRun 18 [.increase, .increase, .decrease]) = true ↔
          fontRun 18 [.increase, .increase, .decrease] < MAX_FONT_SIZE) ∧
        (canDecrease (fontRun 18 [.increase, .increase, .decrease]) = true ↔
          MIN_FONT_SIZE < fontRun 18 [.increase, .increase, .decrease])) :=
  ⟨by decide, by decide,
    fontSize_invariant 18 (by decide) (by decide) [.increase, .increase, .decrease]⟩

/-! ## Theorems: page navigation invariant (C10) -/

lemma navStep_mem (n cp : Nat) (hn : 1 ≤ n) (hlo : 1 ≤ cp) (hhi : cp ≤ n)
    (op : NavOp) : 1 ≤ navStep n cp op ∧ navStep n cp op ≤ n := by
  cases op <;> simp only [navStep, goToNextPage, goToPrevPage] <;> split <;> omega

lemma navRun_mem (n cp : Nat) (hn : 1 ≤ n) (hlo : 1 ≤ cp) (hhi : cp ≤ n)
    (ops : List NavOp) : 1 ≤ navRun n cp ops ∧ navRun n cp ops ≤ n := by
  induction ops generalizing cp with
  | nil => exact ⟨hlo, hhi⟩
  | cons op rest ih =>
    obtain ⟨h1, h2⟩ := navStep_mem n cp hn hlo hhi op
    simpa [navRun] using ih (navStep n cp op) h1 h2

/-- C10: for a session with N ≥ 1 pages and a current page in [1, N],
`goToNextPage` increments only when strictly below N, `goToPrevPage`
decrements only when strictly above 1, and every sequence of next/previous
steps keeps the current page in [1, N]. -/
theorem navigation_invariant (n cp : Nat) (hn : 1 ≤ n) (hlo : 1 ≤ cp) (hhi : cp ≤ n)
    (ops : List NavOp) :
    (cp < n → goToNextPage n cp = cp + 1) ∧
      (¬ cp < n → goToNextPage n cp = cp) ∧
      (1 < cp → goToPrevPage cp = cp - 1) ∧
      (¬ 1 < cp → goToPrevPage cp = cp) ∧
      1 ≤ navRun n cp ops ∧ navRun n cp ops ≤ n := by
  obtain ⟨h1, h2⟩ := navRun_mem n cp hn hlo hhi ops
  refine ⟨?_, ?_, ?_, ?_, h1, h2⟩ <;> intro h <;>
    simp [goToNextPage, goToPrevPage, h]

/-- C10 witness: a 3-page session starting at page 1 with a concrete
navigation sequence. -/
theorem navigation_invariant_witness :
    (1 < 3 → goToNextPage 3 1 = 2) ∧
      (¬ 1 < 3 → goToNextPage 3 1 = 1) ∧
      (1 < 1 → goToPrevPage 1 = 0) ∧
      (¬ 1 < 1 → goToPrevPage 1 = 1) ∧
      1 ≤ navRun 3 1 [.next, .next, .next, .prev] ∧
      navRun 3 1 [.next, .next, .next, .prev] ≤ 3 :=
  navigation_invariant 3 1 (by decide) (by decide) (by decide) [.next, .next, .next, .prev]

/-! ## Audio player (components/AudioPlayer.tsx) -/

/-- The React state of `AudioPlayer` that `loadAudio` reads and writes:
`isLoading`, `isPlaying`, `audioUrl`, `error`, `progress` state hooks and the
`loadedPageRef` ref. Time positions are modelled in whole seconds. -/
structure AudioPlayerState where
  isLoading : Bool
  isPlaying : Bool
  audioUrl : Option String
  error : Option String
  progress : Nat
  loadedPage : Option Nat
deriving Repr, DecidableEq

/-- `loadAudio`: returns early when `loadedPageRef.current === currentPage && audioUrl`;
otherwise clears error/playback state, calls `getTTSAudio` once (its outcome is
`ttsResult`; an `.ok` value is the object URL created from the returned blob)
and on success stores the URL and records the loaded page; on failure stores
the error message. The second component counts `getTTSAudio` calls. -/
def loadAudio (s : AudioPlayerState) (currentPage : Nat)
    (ttsResult : Except String String) : AudioPlayerState × Nat :=
  if s.loadedPage = some currentPage ∧ s.audioUrl.isSome then
    (s, 0)
  else
    let s1 : AudioPlayerState :=
      { s with isLoading := true, error := none, isPlaying := false, progress := 0 }
    match ttsResult with
    | .ok url =>
        ({ s1 with
            audioUrl := some url
            loadedPage := some currentPage
            isLoading := false }, 1)
    | .error e => ({ s1 with error := some e, isLoading := false }, 1)

/-- The interactive controls the `AudioPlayer` component can render. The JSX
renders exactly the skip-backward, play/pause, skip-forward and stop buttons,
the seek bar, and (when no audio is loaded and not loading) the generate
button; no download control exists in the component. -/
inductive PlayerControl
  | skipBackwardBtn
  | playPauseBtn
  | skipForwardBtn
  | stopBtn
  | seekBar
  | generateBtn
  | downloadBtn
deriving Repr, DecidableEq

/-- Attributes of the rendered `<audio>` element: the source URL, whether the
browser `controls` attribute (which exposes a download menu) is set, and
whether the context menu is allowed (`onContextMenu` calls `preventDefault`). -/
structure AudioElementProps where
  src : String
  controlsAttr : Bool
  contextMenuAllowed : Bool
deriving Repr, DecidableEq

/-- The `<audio>` element rendered by `AudioPlayer`: present exactly when
`audioUrl` is set, with no `controls` attribute and the context menu
prevented. -/
def renderAudioElement (s : AudioPlayerState) : Option AudioElementProps :=
  match s.audioUrl with
  | some url => some { src := url, controlsAttr := false, contextMenuAllowed := false }
  | none => none

/-- The control list rendered by `AudioPlayer` for a given state. -/
def renderControls (s : AudioPlayerState) : List PlayerControl :=
  [.skipBackwardBtn, .playPauseBtn, .skipForwardBtn, .stopBtn, .seekBar] ++
    (if s.audioUrl = none ∧ s.isLoading = false then [.generateBtn] else [])

/-! ## Theorems: cached audio is not re-requested (C4) -/

/-- C4: calling `loadAudio` again when the current page is already the loaded
page and an audio URL is present performs no new TTS request and leaves the
whole player state unchanged. -/
theorem loadAudio_cached (s : AudioPlayerState) (p : Nat) (u : String)
    (h1 : s.loadedPage = some p) (h2 : s.audioUrl = some u)
    (r : Except String String) :
    loadAudio s p r = (s, 0) := by
  simp [loadAudio, h1, h2]

/-- C4 witness: a player that already loaded audio for page 2 ignores a fresh
TTS outcome and stays unchanged. -/
theorem loadAudio_cached_witness :
    loadAudio
        { isLoading := false, isPlaying := false, audioUrl := some "blob:a",
          error := none, progress := 7, loadedPage := some 2 } 2 (.ok "blob:b") =
      ({ isLoading := false, isPlaying := false, audioUrl := some "blob:a",
          error := none, progress := 7, loadedPage := some 2 }, 0) :=
  loadAudio_cached _ 2 "blob:a" rfl rfl (.ok "blob:b")

/-! ## Theorems: no audio download (C8) -/

/-- C8: in every player state the rendered control list contains no download
control, and whenever the `<audio>` element is rendered it has the `controls`
attribute disabled (no browser download menu) and its context menu prevented;
the TTS response is held only as the in-memory object URL in `audioUrl`. -/
theorem audio_no_download (s : AudioPlayerState) :
    PlayerControl.downloadBtn ∉ renderControls s ∧
      ∀ el, renderAudioElement s = some el →
        el.controlsAttr = false ∧ el.contextMenuAllowed = false := by
  constructor
  · intro h
    simp only [renderControls, List.mem_append] at h
    rcases h with h | h
    · simp at h
    · split at h <;> simp_all
  · intro el h
    cases hu : s.audioUrl with
    | none => simp [renderAudioElement, hu] at h
    | some url =>
      simp only [renderAudioElement, hu, Option.some_inj] at h
      subst h
      exact ⟨rfl, rfl⟩

/-- C8 witness: a concrete state with loaded audio renders an `<audio>`
element with download controls disabled and no download button. -/
theorem audio_no_download_witness :
    PlayerControl.downloadBtn ∉
        renderControls
          { isLoading := false, isPlaying := true, audioUrl := some "blob:u",
            error := none, progress := 3, loadedPage := some 1 } ∧
      ({ src := "blob:u", controlsAttr := false,
          contextMenuAllowed := false } : AudioElementProps).controlsAttr = false ∧
      ({ src := "blob:u", controlsAttr := false,
          contextMenuAllowed := false } : AudioElementProps).contextMenuAllowed = false :=
  ⟨(audio_no_download
      { isLoading := false, isPlaying := true, audioUrl := some "blob:u",
        error := none, progress := 3, loadedPage := some 1 }).1,
    (audio_no_download
      { isLoading := false, isPlaying := true, audioUrl := some "blob:u",
        error := none, progress := 3, loadedPage := some 1 }).2
      { src := "blob:u", controlsAttr := false, contextMenuAllowed := false } rfl⟩

/-! ## SessionStore and ExpiryReaper (backend core)

The backend that owns this state is not part of the repository sources; only
its HTTP clients (`lib/api.ts`) are. The definitions below are modelled from
the specification (§3, §4.1, §4.4). Timestamps are in seconds. -/

/-- Modelled from the spec: a backend `Session` with its opaque `id`,
`createdAt`, `expiresAt = createdAt + TTL`, ordered page texts and the
`stageCache` mapping cache keys to computed artifacts. -/
structure Session where
  id : String
  createdAt : Nat
  expiresAt : Nat
  pages : List String
  stageCache : List (String × String)
deriving Repr, DecidableEq

/-- Modelled from the spec: the session map, the only shared mutable resource
of the core. -/
abbrev SessionStore := List Session

/-- TTL = 1 hour. -/
def TTL : Nat := 3600

/-- Modelled from the spec: `get(id) -> Session | NotFound`; NotFound if
absent or expired, even if the entry has not yet been physically reaped (the
logical expiry check happens on every read). -/
def SessionStore.get (store : SessionStore) (id : String) (now : Nat) : Option Session :=
  match store.find? (fun s => s.id = id) with
  | none => none
  | some s => if now < s.expiresAt then some s else none

/-- Modelled from the spec: `delete(id) -> void`, idempotent; deleting a
non-existent session is not an error. -/
def SessionStore.delete (store : SessionStore) (id : String) : SessionStore :=
  store.filter (fun s => s.id ≠ id)

/-- Modelled from the spec: one ExpiryReaper tick at time `t` deletes every
session whose `expiresAt <= t`. -/
def reaperTick (store : SessionStore) (t : Nat) : SessionStore :=
  store.filter (fun s => ¬ s.expiresAt ≤ t)

/-! ## Theorems: logical expiry is reaper-independent (C1) -/

lemma find?_filter_of_none {l : List Session} {id : String}
    (h : l.find? (fun s => s.id = id) = none) (p : Session → Bool) :
    (l.filter p).find? (fun s => s.id = id) = none := by
  rw [List.find?_eq_none] at h ⊢
  intro x hx
  exact h x (List.mem_of_mem_filter hx)

lemma get_nil (id : String) (now : Nat) : SessionStore.get [] id now = none := rfl

lemma get_cons_self (s : Session) (rest : SessionStore) (id : String) (now : Nat)
    (hid : s.id = id) :
    SessionStore.get (s :: rest) id now = if now < s.expiresAt then some s else none := by
  unfold SessionStore.get
  rw [List.find?_cons_of_pos _ (by simp [hid])]

lemma get_cons_ne (s : Session) (rest : SessionStore) (id : String) (now : Nat)
    (hid : ¬ s.id = id) :
    SessionStore.get (s :: rest) id now = SessionStore.get rest id now := by
  unfold SessionStore.get
  rw [List.find?_cons_of_neg _ (by simp [hid])]

lemma get_eq_of_find? (now : Nat) {store : SessionStore} {id : String} {s : Session}
    (h : store.find? (fun x => x.id = id) = some s) :
    SessionStore.get store id now = if now < s.expiresAt then some s else none := by
  unfold SessionStore.get
  rw [h]

lemma get_reaperTick (store : SessionStore) (id : String) (now t : Nat) (ht : t ≤ now)
    (huniq : store.Pairwise (fun a b => a.id ≠ b.id)) :
    SessionStore.get (reaperTick store t) id now = SessionStore.get store id now := by
  induction store with
  | nil => rfl
  | cons s rest ih =>
    rw [List.pairwise_cons] at huniq
    obtain ⟨hhead, htail⟩ := huniq
    by_cases hexp : s.expiresAt ≤ t
    · have hfc : reaperTick (s :: rest) t = reaperTick rest t := by
        simp [reaperTick, List.filter_cons, hexp]
      rw [hfc]
      by_cases hid : s.id = id
      · have hrest : rest.find? (fun x => x.id = id) = none := by
          rw [List.find?_eq_none]
          intro x hx
          simp only [decide_eq_true_eq]
          intro hxid
          exact hhead x hx (hid.trans hxid.symm)
        have h1 : SessionStore.get (reaperTick rest t) id now = none := by
          unfold SessionStore.get reaperTick
          rw [find?_filter_of_none hrest _]
        have h2 : SessionStore.get (s :: rest) id now = none := by
          rw [get_cons_self s rest id now hid, if_neg (by omega)]
        rw [h1, h2]
      · rw [ih htail, get_cons_ne s rest id now hid]
    · have hfc : reaperTick (s :: rest) t = s :: reaperTick rest t := by
        simp [reaperTick, List.filter_cons, hexp]
      rw [hfc]
      by_cases hid : s.id = id
      · rw [get_cons_self s (reaperTick rest t) id now hid, get_cons_self s rest id now hid]
      · rw [get_cons_ne s (reaperTick rest t) id now hid, get_cons_ne s rest id now hid,
          ih htail]

/-- C1: with globally unique session ids, a reaper tick at any time `t ≤ now`
does not change what `get` observes at `now`; `get` never returns a session
at or past its `expiresAt`; a session found in the underlying map is returned
by `get` exactly when `now < expiresAt` (NotFound once `now ≥ expiresAt`,
whether or not the reaper has run). -/
theorem session_expiry (store : SessionStore) (id : String) (now t : Nat)
    (ht : t ≤ now) (huniq : store.Pairwise (fun a b => a.id ≠ b.id)) :
    SessionStore.get (reaperTick store t) id now = SessionStore.get store id now ∧
      (∀ s, SessionStore.get store id now = some s → now < s.expiresAt) ∧
      (∀ s, store.find? (fun x => x.id = id) = some s → s.expiresAt ≤ now →
        SessionStore.get store id now = none) ∧
      (∀ s, store.find? (fun x => x.id = id) = some s → now < s.expiresAt →
        SessionStore.get store id now = some s) := by
  refine ⟨get_reaperTick store id now t ht huniq, ?_, ?_, ?_⟩
  · intro s hs
    cases hfind : store.find? (fun x => x.id = id) with
    | none =>
      have hnone : SessionStore.get store id now = none := by
        unfold SessionStore.get
        rw [hfind]
      rw [hnone] at hs
      cases hs
    | some s0 =>
      rw [get_eq_of_find? now hfind] at hs
      by_cases hlt : now < s0.expiresAt
      · rw [if_pos hlt] at hs
        cases hs
        exact hlt
      · rw [if_neg hlt] at hs
        cases hs
  · intro s hfind hexp
    rw [get_eq_of_find? now hfind, if_neg (by omega)]
  · intro s hfind hlt
    rw [get_eq_of_find? now hfind, if_pos hlt]

/-- C1 witness: a session created at time 0 with TTL 3600 is NotFound at
`now = 3600`, with or without a reaper tick at that time. -/
theorem session_expiry_witness :
    SessionStore.get (reaperTick [⟨"a", 0, 3600, ["p"], []⟩] 3600) "a" 3600 =
        SessionStore.get [⟨"a", 0, 3600, ["p"], []⟩] "a" 3600 ∧
      SessionStore.get [⟨"a", 0, 3600, ["p"], []⟩] "a" 3600 = none :=
  ⟨(session_expiry [⟨"a", 0, 3600, ["p"], []⟩] "a" 3600 3600 (by decide) (by simp)).1,
    (session_expiry [⟨"a", 0, 3600, ["p"], []⟩] "a" 3600 3600 (by decide) (by simp)).2.2.1
      ⟨"a", 0, 3600, ["p"], []⟩ (by rfl) (by decide)⟩

/-! ## RequestGate (backend core)

The RequestGate implementation is not part of the repository sources; it is
modelled from the specification (§4.2, §5): concurrent callers on one dedup
key are serialized into at most one upstream execution, whose steps we
linearize into an event sequence. -/

/-- An event at a single dedup key: a caller arrives, or the in-flight
adapter invocation completes with outcome `r`. -/
inductive GateEvent
  | arrive (caller : Nat)
  | complete (r : Except String String)
deriving Repr

/-- Modelled from the spec: per-key RequestGate state — the callers attached
to the current in-flight invocation (none when no invocation is registered),
the outcomes delivered to callers so far, and the number of adapter
invocations started. -/
structure GateState where
  inflight : Option (List Nat)
  delivered : List (Nat × Except String String)
  adapterCalls : Nat
deriving Repr

def gateInit : GateState := { inflight := none, delivered := [], adapterCalls := 0 }

/-- Modelled from the spec: one linearized RequestGate step. An arriving
caller starts and registers a new invocation (one adapter call) when none is
in flight, otherwise attaches to the existing one; completion delivers the
single outcome — value or error — to every attached caller and clears the
registration (success or failure alike). -/
def gateStep (g : GateState) : GateEvent → GateState
  | .arrive c =>
    match g.inflight with
    | none => { g with inflight := some [c], adapterCalls := g.adapterCalls + 1 }
    | some ws => { g with inflight := some (c :: ws) }
  | .complete r =>
    match g.inflight with
    | none => g
    | some ws =>
      { g with inflight := none, delivered := g.delivered ++ ws.map (fun w => (w, r)) }

def gateRun (g : GateState) (events : List GateEvent) : GateState :=
  events.foldl gateStep g

/-! ## Theorems: singleflight deduplication (C2) -/

lemma gateRun_arrivals (callers : List Nat) (g : GateState) (ws : List Nat)
    (h : g.inflight = some ws) :
    gateRun g (callers.map GateEvent.arrive) =
      { g with inflight := some (callers.reverse ++ ws) } := by
  induction callers generalizing g ws with
  | nil =>
    simp only [List.map_nil, gateRun, List.foldl_nil, List.reverse_nil, List.nil_append]
    cases g
    simp_all
  | cons c rest ih =>
    simp only [List.map_cons, gateRun, List.foldl_cons]
    have hstep : gateStep g (.arrive c) = { g with inflight := some (c :: ws) } := by
      simp [gateStep, h]
    rw [hstep]
    have := ih { g with inflight := some (c :: ws) } (c :: ws) rfl
    simp only [gateRun] at this
    rw [this]
    simp

/-- C2: for any nonempty set of concurrent identical requests on one dedup
key, the adapter is invoked exactly once; every caller receives the same
outcome `r` (value or error) and nothing else is delivered; on completion the
registration is cleared, so one further request starts a fresh invocation
(a second adapter call — a failed call is not cached and is immediately
retryable). -/
theorem requestGate_singleflight (callers : List Nat) (r : Except String String)
    (c : Nat) (hne : callers ≠ []) :
    (gateRun gateInit (callers.map GateEvent.arrive ++ [GateEvent.complete r])).adapterCalls
        = 1 ∧
      (gateRun gateInit (callers.map GateEvent.arrive ++ [GateEvent.complete r])).inflight
        = none ∧
      (gateRun gateInit (callers.map GateEvent.arrive ++ [GateEvent.complete r])).delivered
        = callers.reverse.map (fun w => (w, r)) ∧
      (∀ w ∈ callers,
        (w, r) ∈
          (gateRun gateInit (callers.map GateEvent.arrive ++ [GateEvent.complete r])).delivered) ∧
      (gateStep (gateRun gateInit (callers.map GateEvent.arrive ++ [GateEvent.complete r]))
          (GateEvent.arrive c)).adapterCalls = 2 := by
  obtain ⟨c0, rest, rfl⟩ : ∃ c0 rest, callers = c0 :: rest := by
    cases callers with
    | nil => exact absurd rfl hne
    | cons c0 rest => exact ⟨c0, rest, rfl⟩
  have hfirst : gateStep gateInit (.arrive c0) =
      { inflight := some [c0], delivered := [], adapterCalls := 1 } := by
    simp [gateStep, gateInit]
  have harr : gateRun gateInit ((c0 :: rest).map GateEvent.arrive) =
      { inflight := some (rest.reverse ++ [c0]), delivered := [], adapterCalls := 1 } := by
    simp only [List.map_cons, gateRun, List.foldl_cons, hfirst]
    have := gateRun_arrivals rest
      { inflight := some [c0], delivered := [], adapterCalls := 1 } [c0] rfl
    simpa [gateRun] using this
  have hall : gateRun gateInit ((c0 :: rest).map GateEvent.arrive ++ [GateEvent.complete r]) =
      { inflight := none,
        delivered := (rest.reverse ++ [c0]).map (fun w => (w, r)), adapterCalls := 1 } := by
    simp only [gateRun, List.foldl_append, List.foldl_cons, List.foldl_nil]
    simp only [gateRun] at harr
    rw [harr]
    simp [gateStep]
  rw [hall]
  refine ⟨rfl, rfl, by simp, ?_, by simp [gateStep]⟩
  intro w hw
  have hw2 : w ∈ rest.reverse ++ [c0] := by
    simp only [List.mem_append, List.mem_reverse, List.mem_singleton]
    rcases List.mem_cons.mp hw with h | h
    · exact Or.inr h
    · exact Or.inl h
  exact List.mem_map.mpr ⟨w, hw2, rfl⟩

/-- C2 witness: three concurrent identical requests (callers 0, 1, 2) — one
adapter call, all three receive the outcome, the key is cleared, and a fourth
request triggers a second adapter call. -/
theorem requestGate_singleflight_witness :
    (gateRun gateInit ([0, 1, 2].map GateEvent.arrive ++
        [GateEvent.complete (.ok "telugu")])).adapterCalls = 1 ∧
      (gateRun gateInit ([0, 1, 2].map GateEvent.arrive ++
        [GateEvent.complete (.ok "telugu")])).inflight = none ∧
      (gateRun gateInit ([0, 1, 2].map GateEvent.arrive ++
        [GateEvent.complete (.ok "telugu")])).delivered =
        [2, 1, 0].map (fun w => (w, Except.ok "telugu")) ∧
      (1, Except.ok "telugu") ∈
        (gateRun gateInit ([0, 1, 2].map GateEvent.arrive ++
          [GateEvent.complete (.ok "telugu")])).delivered ∧
      (gateStep (gateRun gateInit ([0, 1, 2].map GateEvent.arrive ++
          [GateEvent.complete (.ok "telugu")])) (GateEvent.arrive 7)).adapterCalls = 2 := by
  have h := requestGate_singleflight [0, 1, 2] (.ok "telugu") 7 (by simp)
  exact ⟨h.1, h.2.1, by simpa using h.2.2.1, h.2.2.2.1 1 (by simp), h.2.2.2.2⟩

/-! ## Session hook (hooks/useSession.ts) and backend upload -/

/-- `PageText` from `lib/api.ts`. -/
structure PageText where
  page_number : Nat
  text : String
deriving Repr, DecidableEq

/-- `UploadResponse` from `lib/api.ts`. -/
structure UploadResponse where
  session_id : String
  page_count : Nat
  message : String
deriving Repr, DecidableEq

/-- The React state of `useSession`. -/
structure SessionHookState where
  sessionId : Option String
  pages : List PageText
  isLoading : Bool
  error : Option String
deriving Repr, DecidableEq

/-- The initial `useSession` state: `useState<string | null>(null)`,
`useState<PageText[]>([])`, `useState(false)`, `useState<string | null>(null)`. -/
def initialSessionHookState : SessionHookState :=
  { sessionId := none, pages := [], isLoading := false, error := none }

/-- `useSession.upload`: sets loading, clears the error, awaits
`uploadImages` (outcome `uploadResult`), on success stores the session id and
then awaits `getPages` (outcome `pagesResult`, the returned page list), on
success stores the pages; any error is recorded and re-thrown (second
component `true` when the call threw), and loading is always cleared. -/
def upload (s : SessionHookState) (uploadResult : Except String UploadResponse)
    (pagesResult : Except String (List PageText)) : SessionHookState × Bool :=
  let s1 := { s with isLoading := true, error := none }
  match uploadResult with
  | .error e => ({ s1 with error := some e, isLoading := false }, true)
  | .ok resp =>
    let s2 := { s1 with sessionId := some resp.session_id }
    match pagesResult with
    | .error e => ({ s2 with error := some e, isLoading := false }, true)
    | .ok pgs => ({ s2 with pages := pgs, isLoading := false }, false)

/-- `useSession.clearSession`: when a session id is present it awaits
`deleteSession` and ignores any error (`catch {}`); afterwards it
unconditionally clears the session id, the pages and the error. -/
def clearSession (s : SessionHookState) (deleteResult : Except String Unit) :
    SessionHookState :=
  match deleteResult with
  | _ => { s with sessionId := none, pages := [], error := none }

/-- Modelled from the spec: per-page OCR during Upload; only after all pages
succeed is `SessionStore.create` called — if any page's OCR fails, or no page
was processed, no session is created (atomic all-or-nothing). Returns the
created session's page texts, or `none` when the upload is rejected. -/
def collectOk : List (Except String String) → Option (List String)
  | [] => some []
  | .ok t :: rest => (collectOk rest).map (fun ts => t :: ts)
  | .error _ :: _ => none

/-- Modelled from the spec: the Upload operation over the per-page OCR
outcomes. -/
def uploadCreate (ocrResults : List (Except String String)) : Option (List String) :=
  if ocrResults.isEmpty then none else collectOk ocrResults

/-! ## Theorems: upload atomicity (C3) -/

lemma collectOk_length {l : List (Except String String)} {ts : List String}
    (h : collectOk l = some ts) : ts.length = l.length := by
  induction l generalizing ts with
  | nil =>
    simp only [collectOk, Option.some_inj] at h
    subst h
    rfl
  | cons r rest ih =>
    cases r with
    | ok t =>
      simp only [collectOk, Option.map_eq_some'] at h
      obtain ⟨ts0, h0, rfl⟩ := h
      simp [ih h0]
    | error e => simp [collectOk] at h

lemma collectOk_none_of_error {l : List (Except String String)} {e : String}
    (h : Except.error e ∈ l) : collectOk l = none := by
  induction l with
  | nil => cases h
  | cons r rest ih =>
    cases r with
    | ok t =>
      have hmem : Except.error e ∈ rest := by
        rcases List.mem_cons.mp h with h0 | h0
        · cases h0
        · exact h0
      simp [collectOk, ih hmem]
    | error e0 => simp [collectOk]

/-- C3 counterexample: the claim fails on `useSession.upload`. When
`uploadImages` succeeds (session "s1") but the subsequent `getPages` call
fails, the upload as a whole throws, yet the client state holds a session id
with an empty page list — exactly the partial session state the claim says is
never observable. -/
theorem upload_partial_counterexample :
    (upload initialSessionHookState
        (.ok { session_id := "s1", page_count := 1, message := "ok" })
        (.error "network error")).2 = true ∧
      (upload initialSessionHookState
        (.ok { session_id := "s1", page_count := 1, message := "ok" })
        (.error "network error")).1.sessionId = some "s1" ∧
      (upload initialSessionHookState
        (.ok { session_id := "s1", page_count := 1, message := "ok" })
        (.error "network error")).1.pages = [] :=
  ⟨rfl, rfl, rfl⟩

/-- C3 amended: the backend upload is atomic — a session is created only when
there is at least one page and every page's OCR succeeded, and such a session
has as many (hence ≥ 1) page texts as uploaded files; on the frontend, if the
initial `uploadImages` call fails no session state appears (session id stays
null, pages stay empty) and the error is surfaced. Only a `getPages` failure
after a successful upload can leave the client holding a session id with an
empty page list. -/
theorem upload_atomic_amended (e : String) (pagesResult : Except String (List PageText))
    (ocr : List (Except String String)) :
    ((upload initialSessionHookState (.error e) pagesResult).1.sessionId = none ∧
      (upload initialSessionHookState (.error e) pagesResult).1.pages = [] ∧
      (upload initialSessionHookState (.error e) pagesResult).1.error = some e ∧
      (upload initialSessionHookState (.error e) pagesResult).2 = true) ∧
      (∀ ts, uploadCreate ocr = some ts → ts.length = ocr.length ∧ ts ≠ []) ∧
      (∀ err, Except.error err ∈ ocr → uploadCreate ocr = none) := by
  refine ⟨⟨rfl, rfl, rfl, rfl⟩, ?_, ?_⟩
  · intro ts hsome
    unfold uploadCreate at hsome
    by_cases hemp : ocr.isEmpty
    · rw [if_pos hemp] at hsome
      cases hsome
    · rw [if_neg hemp] at hsome
      have hlen := collectOk_length hsome
      refine ⟨hlen, ?_⟩
      intro hnil
      subst hnil
      simp only [List.length_nil] at hlen
      exact hemp (List.isEmpty_iff_length_eq_zero.mpr hlen.symm)
  · intro err herr
    unfold uploadCreate
    by_cases hemp : ocr.isEmpty
    · rw [if_pos hemp]
    · rw [if_neg hemp]
      exact collectOk_none_of_error herr

/-- C3 amended witness: a failed `uploadImages` call leaves the fresh state
untouched; a 2-page all-ok OCR batch creates a 2-page session, and a batch
with one OCR failure creates none. -/
theorem upload_atomic_amended_witness :
    ((upload initialSessionHookState (.error "bad request") (.ok [])).1.sessionId = none ∧
      (upload initialSessionHookState (.error "bad request") (.ok [])).1.pages = [] ∧
      (upload initialSessionHookState (.error "bad request") (.ok [])).1.error =
        some "bad request" ∧
      (upload initialSessionHookState (.error "bad request") (.ok [])).2 = true) ∧
      (["t1", "t2"].length =
        ([Except.ok "t1", Except.ok "t2"] : List (Except String String)).length ∧
        ["t1", "t2"] ≠ ([] : List String)) ∧
      uploadCreate [Except.ok "t1", Except.error "ocr failed"] = none :=
  ⟨(upload_atomic_amended "bad request" (.ok [])
      [Except.ok "t1", Except.ok "t2"]).1,
    (upload_atomic_amended "bad request" (.ok [])
      [Except.ok "t1", Except.ok "t2"]).2.1 ["t1", "t2"] rfl,
    (upload_atomic_amended "bad request" (.ok [])
      [Except.ok "t1", Except.error "ocr failed"]).2.2 "ocr failed" (by simp)⟩

/-! ## Theorems: session delete is idempotent and clears state (C6) -/

/-- C6: deleting a session always succeeds and is idempotent — deleting twice
equals deleting once, deleting an absent id leaves the store unchanged (not
an error), and after a delete `get` returns NotFound; on the frontend,
`clearSession` leaves the local state with no session id and no pages
whatever the outcome of the `deleteSession` request was. -/
theorem delete_idempotent (store : SessionStore) (id : String) (now : Nat)
    (s : SessionHookState) (deleteResult : Except String Unit)
    (habsent : store.find? (fun x => x.id = id) = none) :
    SessionStore.delete (SessionStore.delete store id) id = SessionStore.delete store id ∧
      SessionStore.delete store id = store ∧
      SessionStore.get (SessionStore.delete store id) id now = none ∧
      (clearSession s deleteResult).sessionId = none ∧
      (clearSession s deleteResult).pages = [] ∧
      (clearSession s deleteResult).error = none := by
  refine ⟨?_, ?_, ?_, rfl, rfl, rfl⟩
  · unfold SessionStore.delete
    rw [List.filter_filter]
    simp
  · unfold SessionStore.delete
    rw [List.filter_eq_self]
    intro a ha
    rw [List.find?_eq_none] at habsent
    simpa using habsent a ha
  · unfold SessionStore.get SessionStore.delete
    have hnone : (store.filter (fun s => s.id ≠ id)).find? (fun x => x.id = id) = none := by
      rw [List.find?_eq_none]
      intro x hx
      have := List.of_mem_filter hx
      simpa using this
    rw [hnone]

/-- C6 witness: deleting the only session, then an absent id, and clearing a
populated local state. -/
theorem delete_idempotent_witness :
    SessionStore.delete (SessionStore.delete [] "gone") "gone" =
        SessionStore.delete [] "gone" ∧
      SessionStore.delete [] "gone" = [] ∧
      SessionStore.get (SessionStore.delete [] "gone") "gone" 5 = none ∧
      (clearSession
          { sessionId := some "s1", pages := [{ page_number := 1, text := "p" }],
            isLoading := false, error := some "boom" } (.error "http 500")).sessionId = none ∧
      (clearSession
          { sessionId := some "s1", pages := [{ page_number := 1, text := "p" }],
            isLoading := false, error := some "boom" } (.error "http 500")).pages = [] ∧
      (clearSession
          { sessionId := some "s1", pages := [{ page_number := 1, text := "p" }],
            isLoading := false, error := some "boom" } (.error "http 500")).error = none :=
  delete_idempotent [] "gone" 5
    { sessionId := some "s1", pages := [{ page_number := 1, text := "p" }],
      isLoading := false, error := some "boom" } (.error "http 500") rfl

/-! ## Image uploader (components/ImageUploader.tsx, in app/layout.tsx bundle) -/

/-- The `name`, `type` (MIME) and `size` (bytes) of a selected `File`. -/
structure FileDesc where
  name : String
  type : String
  size : Nat
deriving Repr, DecidableEq

/-- `allowedTypes` from `ImageUploader`. -/
def allowedTypes : List String := ["image/jpeg", "image/png", "image/webp", "image/gif"]

/-- The 10MB file-size limit (`10 * 1024 * 1024`). -/
def MAX_FILE_SIZE : Nat := 10 * 1024 * 1024

/-- The `ImageUploader` state touched by file selection. -/
structure UploaderState where
  selectedFiles : List FileDesc
  error : Option String
deriving Repr, DecidableEq

/-- `ImageUploader.handleFileSelect`: returns unchanged on an empty file
list; otherwise clears the error and checks `files[0]` — a disallowed MIME
type, a size over 10MB, or a full selection (`selectedFiles.length >= maxFiles`)
sets an error and adds nothing; otherwise the file is appended to the
selection. -/
def handleFileSelect (maxFiles : Nat) (s : UploaderState) (files : List FileDesc) :
    UploaderState :=
  match files with
  | [] => s
  | file :: _ =>
    if ¬ allowedTypes.contains file.type then
      { selectedFiles := s.selectedFiles,
        error := some (file.name ++ " is not a valid image type. Use JPG, PNG, WebP, or GIF.") }
    else if file.size > MAX_FILE_SIZE then
      { selectedFiles := s.selectedFiles,
        error := some (file.name ++ " is too large. Maximum size is 10MB.") }
    else if s.selectedFiles.length ≥ maxFiles then
      { selectedFiles := s.selectedFiles,
        error := some ("Maximum " ++ toString maxFiles ++ " images allowed.") }
    else
      { selectedFiles := s.selectedFiles ++ [file], error := none }

/-- `ImageUploader.handleUpload`: with an empty selection it returns without
calling `onUpload` (no request, hence no session); otherwise the selected
files are submitted. -/
def handleUpload (s : UploaderState) : Option (List FileDesc) :=
  if s.selectedFiles.length = 0 then none else some s.selectedFiles

/-- Modelled from the spec: the outcome of boundary validation of an upload
request (the backend HTTP handler is not part of src/). -/
inductive UploadOutcome
  | validationError
  | accepted (files : List FileDesc)
deriving Repr, DecidableEq

/-- Modelled from the spec: upload with 0 files, more than 15 files, a
disallowed MIME type or an oversized file is rejected with `ValidationError`
before any store interaction, so no session is created. -/
def serverValidateUpload (files : List FileDesc) : UploadOutcome :=
  if files.isEmpty then .validationError
  else if files.length > 15 then .validationError
  else if files.any (fun f => ¬ allowedTypes.contains f.type ∨ f.size > MAX_FILE_SIZE) then
    .validationError
  else .accepted files

/-! ## Theorems: upload validation (C5) -/

/-- C5: a file with a disallowed MIME type or over the size limit is rejected
by `handleFileSelect` — an error is reported and the file is never added to
the selected set; `handleUpload` with zero selected files makes no upload
request at all; and at the (spec-modelled) boundary, an upload with 0 files,
more than 15 files, or containing an invalid file is a `ValidationError`, so
no session is created. -/
theorem upload_validation (maxFiles : Nat) (s : UploaderState) (f : FileDesc)
    (rest : List FileDesc) (s0 : UploaderState)
    (hbad : ¬ allowedTypes.contains f.type ∨ f.size > MAX_FILE_SIZE)
    (hempty : s0.selectedFiles = []) :
    (handleFileSelect maxFiles s (f :: rest)).selectedFiles = s.selectedFiles ∧
      (handleFileSelect maxFiles s (f :: rest)).error.isSome = true ∧
      handleUpload s0 = none ∧
      serverValidateUpload [] = .validationError ∧
      (∀ files : List FileDesc, files.length > 15 →
        serverValidateUpload files = .validationError) ∧
      (∀ files : List FileDesc, f ∈ files →
        serverValidateUpload files = .validationError) := by
  have hsel : (handleFileSelect maxFiles s (f :: rest)).selectedFiles = s.selectedFiles ∧
      (handleFileSelect maxFiles s (f :: rest)).error.isSome = true := by
    rcases hbad with hbad | hbad
    · simp only [handleFileSelect]
      rw [if_pos hbad]
      exact ⟨rfl, rfl⟩
    · simp only [handleFileSelect]
      by_cases htype : ¬ allowedTypes.contains f.type
      · rw [if_pos htype]
        exact ⟨rfl, rfl⟩
      · rw [if_neg htype, if_pos hbad]
        exact ⟨rfl, rfl⟩
  refine ⟨hsel.1, hsel.2, ?_, rfl, ?_, ?_⟩
  · unfold handleUpload
    rw [if_pos (by simp [hempty])]
  · intro files hcount
    unfold serverValidateUpload
    have hemp : ¬ files.isEmpty := by
      rw [List.isEmpty_iff_length_eq_zero]
      omega
    rw [if_neg hemp, if_pos hcount]
  · intro files hmem
    unfold serverValidateUpload
    by_cases hemp : files.isEmpty
    · rw [if_pos hemp]
    · rw [if_neg hemp]
      by_cases hcount : files.length > 15
      · rw [if_pos hcount]
      · rw [if_neg hcount, if_pos]
        rw [List.any_eq_true]
        exact ⟨f, hmem, by simpa using hbad⟩

/-- C5 witness: a 100-byte PDF is rejected and never selected; an empty
selection uploads nothing; and the boundary rejects the empty upload, an
upload of 16 valid JPEGs, and the invalid-file upload. -/
theorem upload_validation_witness :
    (handleFileSelect 15 { selectedFiles := [], error := none }
        [{ name := "a.pdf", type := "application/pdf", size := 100 }]).selectedFiles = [] ∧
      (handleFileSelect 15 { selectedFiles := [], error := none }
        [{ name := "a.pdf", type := "application/pdf", size := 100 }]).error.isSome = true ∧
      handleUpload { selectedFiles := [], error := none } = none ∧
      serverValidateUpload [] = .validationError ∧
      serverValidateUpload
        (List.replicate 16 { name := "p.jpg", type := "image/jpeg", size := 1000 }) =
        .validationError ∧
      serverValidateUpload
        [{ name := "a.pdf", type := "application/pdf", size := 100 }] = .validationError := by
  have h := upload_validation 15 { selectedFiles := [], error := none }
    { name := "a.pdf", type := "application/pdf", size := 100 } []
    { selectedFiles := [], error := none }
    (Or.inl (by decide)) rfl
  exact ⟨h.1, h.2.1, h.2.2.1, h.2.2.2.1,
    h.2.2.2.2.1 (List.replicate 16 { name := "p.jpg", type := "image/jpeg", size := 1000 })
      (by simp),
    h.2.2.2.2.2 [{ name := "a.pdf", type := "application/pdf", size := 100 }] (by simp)⟩

/-! ## Character table (components/CharacterTable.tsx) and re-generate -/

/-- `Character` from `lib/api.ts`. -/
structure Character where
  name : String
  role : String
  relationships : List String
  first_appearance_page : Nat
deriving Repr, DecidableEq

/-- The `CharacterTable` state touched by extraction. -/
structure CharacterTableState where
  characters : List Character
  language : String
  isLoading : Bool
  error : Option String
  hasLoaded : Bool
deriving Repr, DecidableEq

/-- `CharacterTable.handleExtractCharacters` (also triggered by the
"Re-extract characters" button): unconditionally sets loading, clears the
error, records the language, awaits one `getCharacters` call (outcome
`result`; the locally displayed `characters` are never consulted), on success
replaces the character list and marks loaded, on failure records the error;
loading is always cleared. The second component counts `getCharacters`
calls. -/
def handleExtractCharacters (s : CharacterTableState) (lang : String)
    (result : Except String (List Character)) : CharacterTableState × Nat :=
  let s1 := { s with isLoading := true, error := none, language := lang }
  match result with
  | .ok chars =>
    ({ s1 with characters := chars, hasLoaded := true, isLoading := false }, 1)
  | .error e => ({ s1 with error := some e, isLoading := false }, 1)

/-- Modelled from the spec: `putCache` overwrites the entry stored under
`key`. -/
def putCache (cache : List (String × String)) (key v : String) :
    List (String × String) :=
  (key, v) :: cache.filter (fun e => e.1 ≠ key)

/-- Modelled from the spec: `getCache` lookup. -/
def getCacheEntry (cache : List (String × String)) (key : String) : Option String :=
  (cache.find? (fun e => e.1 = key)).map (fun e => e.2)

/-- Modelled from the spec: the re-generate variant of
`PipelineOrchestrator.getOrCompute` — it bypasses the cache lookup, runs the
adapter through the RequestGate, and on success overwrites the cache entry;
on failure nothing is cached. Components: new cache, adapter-call count,
outcome returned to the caller. -/
def regenerate (cache : List (String × String)) (key : String)
    (fresh : Except String String) :
    List (String × String) × Nat × Except String String :=
  match fresh with
  | .ok v => (putCache cache key v, 1, .ok v)
  | .error e => (cache, 1, .error e)

/-! ## Theorems: re-generate overwrites the cache (C7) -/

/-- C7: a re-generate request for Characters ignores the existing cached
entry: `handleExtractCharacters` makes exactly one `getCharacters` call and
on success replaces the displayed character list with the fresh result
regardless of the previous list; the spec-modelled orchestrator re-generate
makes exactly one adapter call and overwrites the stale cache entry with the
new value. -/
theorem regenerate_characters (s : CharacterTableState) (lang : String)
    (chars : List Character) (cache : List (String × String)) (key old v : String)
    (_hstale : getCacheEntry cache key = some old) :
    (handleExtractCharacters s lang (.ok chars)).2 = 1 ∧
      (handleExtractCharacters s lang (.ok chars)).1.characters = chars ∧
      (handleExtractCharacters s lang (.ok chars)).1.hasLoaded = true ∧
      (regenerate cache key (.ok v)).2.1 = 1 ∧
      getCacheEntry (regenerate cache key (.ok v)).1 key = some v := by
  refine ⟨rfl, rfl, rfl, rfl, ?_⟩
  unfold regenerate putCache getCacheEntry
  rw [List.find?_cons_of_pos _ (by simp)]
  rfl

/-- C7 witness: with a stale cached value under the characters key, one
re-generate call overwrites it and replaces the displayed list. -/
theorem regenerate_characters_witness :
    (handleExtractCharacters ⟨[⟨"Old", "minor", [], 2⟩], "english", false, none, true⟩
        "english" (.ok [⟨"Asha", "hero", ["Ravi"], 1⟩])).2 = 1 ∧
      (handleExtractCharacters ⟨[⟨"Old", "minor", [], 2⟩], "english", false, none, true⟩
        "english" (.ok [⟨"Asha", "hero", ["Ravi"], 1⟩])).1.characters =
        [⟨"Asha", "hero", ["Ravi"], 1⟩] ∧
      (regenerate [("characters/english", "stale")] "characters/english"
        (.ok "fresh")).2.1 = 1 ∧
      getCacheEntry
        (regenerate [("characters/english", "stale")] "characters/english"
          (.ok "fresh")).1 "characters/english" = some "fresh" := by
  have h := regenerate_characters
    ⟨[⟨"Old", "minor", [], 2⟩], "english", false, none, true⟩ "english"
    [⟨"Asha", "hero", ["Ravi"], 1⟩]
    [("characters/english", "stale")] "characters/english" "stale" "fresh" rfl
  exact ⟨h.1, h.2.1, h.2.2.2.1, h.2.2.2.2⟩

end ReadingCompanion
